import Mathlib

/-!
Verification development for multifit/datasets/create_wikitext.py.

The script streams Wikipedia article records, tokenizes them, drops short
articles, and partitions the accepted stream into train/valid/test files
bounded by per-split token budgets.  We embed the core pipeline shallowly:

* an article record is a pair of strings (title, text);
* the tokenizer capability is a function parameter: the return_str=True
  variant is a function String -> String, the list variant is a function
  String -> List String, and mt.tokenize(s, return_str=True) is the
  space-join of mt.tokenize(s);
* the shared generator get_texts and its three sequential consumers are
  modelled by explicit lists: each writer call returns the articles it
  wrote together with the articles left unconsumed in the iterator;
* file output is modelled as the list of written articles plus a rendering
  function producing the exact written text;
* Python int arithmetic is Nat/Int; the float literal 0.1 is modelled by
  the exact rational 1/10, and Python int() on a nonnegative rational is
  explicit truncation toward zero.
-/

/-- One parsed record line of the wiki dump: the json fields title and text. -/
structure Article where
  title : String
  text : String
deriving DecidableEq

/-- Characters removed by Python str.strip(): ASCII whitespace
(space, tab, newline, carriage return, vertical tab, form feed). -/
def isPySpace (c : Char) : Bool :=
  c = ' ' || c = '\t' || c = '\n' || c = '\r' || c = Char.ofNat 11 || c = Char.ofNat 12

/-- Python s.strip(): remove leading and trailing whitespace. -/
def pyStrip (s : String) : String :=
  String.mk (((s.data.dropWhile isPySpace).reverse.dropWhile isPySpace).reverse)

/-- Split a character list at every occurrence of the separator, keeping
empty pieces, as Python s.split(sep) does for an explicit separator. -/
def splitChars (sep : Char) : List Char → List (List Char)
  | [] => [[]]
  | c :: cs =>
    match splitChars sep cs with
    | [] => [[]]
    | r :: rs => if c = sep then [] :: r :: rs else (c :: r) :: rs

/-- Python s.split(sep) for a one-character separator: empty pieces kept. -/
def pySplitOn (sep : Char) (s : String) : List String :=
  (splitChars sep s.data).map String.mk

/-- text.split of the newline delimiter, as used for paragraphs. -/
def paragraphsOf (text : String) : List String :=
  pySplitOn '\n' text

/-- tokenized.split of the space character with empty tokens discarded:
the token list the writer counts for one tokenized paragraph. -/
def tokensOf (s : String) : List String :=
  (pySplitOn ' ' s).filter (fun t => !(t == ""))

/-- Number of whitespace-delimited non-empty tokens of a tokenized paragraph. -/
def numTokens (s : String) : Nat :=
  (tokensOf s).length

/-- The generator get_texts: yields each record whose stripped text is not
equal to its title (note: the title is compared verbatim, unstripped). -/
def get_texts : List Article → List Article
  | [] => []
  | a :: rest =>
    if pyStrip a.text = a.title then get_texts rest
    else a :: get_texts rest

/-- Inner loop body of findTotalTokens: one paragraph of one article.
tokenized = mt.tokenize(paragraph.strip()); token_count = len(tokenized)+1;
if token_count >= 100 the running total grows by len(tokenized). -/
def scanParagraph (tok : String → List String) (total : Nat) (p : String) : Nat :=
  let tokenized := tok (pyStrip p)
  let token_count := tokenized.length + 1
  if 100 ≤ token_count then total + tokenized.length else total

/-- Per-article step of findTotalTokens: the stub filter, then the fold of
scanParagraph over the article's paragraphs with the shared running total. -/
def scanArticle (tok : String → List String) (total : Nat) (a : Article) : Nat :=
  if pyStrip a.text = a.title then total
  else (paragraphsOf a.text).foldl (scanParagraph tok) total

/-- findTotalTokens: fold the scan over every record with total starting at 0. -/
def findTotalTokens (tok : String → List String) (articles : List Article) : Nat :=
  articles.foldl (scanArticle tok) 0

/-- The return_str=True tokenizer obtained from a list tokenizer:
sacremoses joins the token list with single spaces. -/
def joinTok (tok : String → List String) : String → String :=
  fun s => String.intercalate " " (tok s)

/-- Per-paragraph step of the writer's token accounting:
tokenized = mt.tokenize(paragraph.strip(), return_str=True);
num_tokens_article += len(nonempty tokens of tokenized) + 1. -/
def countParagraph (mt : String → String) (n : Nat) (p : String) : Nat :=
  let tokenized := mt (pyStrip p)
  n + (numTokens tokenized + 1)

/-- num_tokens_article for one article in write_wikitext. -/
def articleTokenCount (mt : String → String) (text : String) : Nat :=
  (paragraphsOf text).foldl (countParagraph mt) 0

/-- The writer's acceptance test: the article is written unless
num_tokens_article < 100. -/
def accepted (mt : String → String) (a : Article) : Bool :=
  decide (100 ≤ articleTokenCount mt a.text)

/-- The break test of write_wikitext:
num_tokens is not None and total_num_tokens > num_tokens. -/
def overBudget (budget : Option Int) (total : Nat) : Bool :=
  match budget with
  | some b => decide ((total : Int) > b)
  | none => false

/-- Outcome of one write_wikitext call: the articles written in order,
the final document count and token total, and the articles the shared
iterator still holds when the call returns. -/
structure WriteResult where
  written : List Article
  count : Nat
  total : Nat
  rest : List Article
deriving DecidableEq

/-- The loop of write_wikitext over the shared iterator, carrying the
loop variables count and total_num_tokens.  A rejected article is skipped;
an accepted one is written, count and total are bumped, and the loop
breaks when the budget is strictly exceeded. -/
def writeLoop (mt : String → String) (budget : Option Int) :
    Nat → Nat → List Article → WriteResult
  | count, total, [] => ⟨[], count, total, []⟩
  | count, total, a :: rest =>
    let tc := articleTokenCount mt a.text
    if tc < 100 then
      writeLoop mt budget count total rest
    else
      let count' := count + 1
      let total' := total + tc + 1
      if overBudget budget total' then
        ⟨[a], count', total', rest⟩
      else
        let r := writeLoop mt budget count' total' rest
        ⟨a :: r.written, r.count, r.total, r.rest⟩

/-- write_wikitext: run the loop from count = 0, total_num_tokens = 0. -/
def write_wikitext (mt : String → String) (budget : Option Int)
    (input : List Article) : WriteResult :=
  writeLoop mt budget 0 0 input

/-- The exact text write_wikitext emits for one accepted article:
the header line, a newline, then each tokenized paragraph with a newline. -/
def renderArticle (mt : String → String) (a : Article) : String :=
  "= " ++ pyStrip a.title ++ " =" ++ "\n" ++
    String.join ((paragraphsOf a.text).map (fun p => mt (pyStrip p) ++ "\n"))

/-- The whole file content produced by one write_wikitext call. -/
def fileContent (mt : String → String) (r : WriteResult) : String :=
  String.join (r.written.map (renderArticle mt))

/-- The first writer call of main: the train split consumes the fresh
get_texts iterator under the train budget. -/
def trainRun (mt : String → String) (src : List Article) (b1 : Int) : WriteResult :=
  write_wikitext mt (some b1) (get_texts src)

/-- The second writer call of main: the valid split resumes from the
iterator position the train call left behind. -/
def validRun (mt : String → String) (src : List Article) (b1 b2 : Int) : WriteResult :=
  write_wikitext mt (some b2) (trainRun mt src b1).rest

/-- The third writer call of main: the test split resumes after valid. -/
def testRun (mt : String → String) (src : List Article) (b1 b2 b3 : Int) : WriteResult :=
  write_wikitext mt (some b3) (validRun mt src b1 b2).rest

/-- Python int() applied to a rational: truncation toward zero. -/
def pyInt (q : ℚ) : ℤ :=
  Int.sign q.num * ((q.num.natAbs / q.den : ℕ) : ℤ)

/-- get_splits: split = int(tokens_size*split); return
[tokens_size - 2*split, split, split].  The float fraction is modelled
by an exact rational. -/
def get_splits (tokens_size : ℤ) (split : ℚ) : List ℤ :=
  let s := pyInt ((tokens_size : ℚ) * split)
  [tokens_size - 2 * s, s, s]

/- Concrete instances used by the counterexamples and witnesses. -/

/-- A tokenizer that returns its input unchanged: its token list is the
whitespace-delimited word list of the paragraph. -/
def mtId : String → String := fun s => s

/-- A tokenizer that maps every paragraph to the empty string. -/
def mtEmpty : String → String := fun _ => ""

/-- A line of n single-letter tokens separated by single spaces. -/
def tokensLine (n : Nat) : String :=
  String.intercalate " " (List.replicate n "a")

/-- One-paragraph article whose writer token count is 99 under mtId. -/
def art99 : Article := ⟨"t99", tokensLine 98⟩

/-- One-paragraph article whose writer token count is exactly 100 under mtId. -/
def art100 : Article := ⟨"t100", tokensLine 99⟩

/-- Articles of writer token counts 150, 50 and 200 under mtId. -/
def art150 : Article := ⟨"s150", tokensLine 149⟩

def art50 : Article := ⟨"s50", tokensLine 49⟩

def art200 : Article := ⟨"s200", tokensLine 199⟩

/-- Four distinct articles of writer token count 100 each under mtId. -/
def bArt1 : Article := ⟨"b1", tokensLine 99⟩

def bArt2 : Article := ⟨"b2", tokensLine 99⟩

def bArt3 : Article := ⟨"b3", tokensLine 99⟩

def bArt4 : Article := ⟨"b4", tokensLine 99⟩

/-- A list tokenizer returning 99 tokens for every paragraph. -/
def tokC : String → List String := fun _ => List.replicate 99 "a"

/-- A one-paragraph, non-stub article fed to the scanner counterexample. -/
def artC : Article := ⟨"tC", "x"⟩

/-- A record whose stripped text equals its stripped title while the raw
title carries surrounding whitespace; its body has 200 further empty
paragraphs so that the writer accepts it. -/
def cexStub : Article := ⟨" x ", "x" ++ String.mk (List.replicate 200 '\n')⟩

/-- A genuine stub record: stripped text equal to the verbatim title. -/
def stubArt : Article := ⟨"x", "x"⟩



/-- The three-article source of the end-to-end scenario: writer token
counts 150, 50 and 200 under mtId, in that order. -/
def srcScenario : List Article := [art150, art50, art200]

/-- A four-article source in which every article is accepted under mtId. -/
def srcFour : List Article := [bArt1, bArt2, bArt3, bArt4]

/-- An article whose text is 100 empty paragraphs (99 newline characters). -/
def aBlank : Article := ⟨"blank", String.mk (List.replicate 99 '\n')⟩


set_option maxRecDepth 100000

/-- Folding the writer's per-paragraph accounting from any start value adds
the sum of the per-paragraph contributions. -/
theorem foldl_countParagraph (mt : String → String) (ps : List String) (n0 : Nat) :
    ps.foldl (countParagraph mt) n0
      = n0 + (ps.map (fun p => numTokens (mt (pyStrip p)) + 1)).sum := by
  induction ps generalizing n0 with
  | nil => simp
  | cons p ps ih =>
    simp only [List.foldl_cons, List.map_cons, List.sum_cons, ih, countParagraph]
    omega

/-- Claim C5: num_tokens_article equals the sum over the article's
newline-separated paragraphs of (the number of whitespace-delimited
non-empty tokens of the tokenized paragraph plus 1), the +1 counted once
per paragraph - also for paragraphs with zero tokens - not once per article. -/
theorem C5_token_count_formula (mt : String → String) (text : String) :
    articleTokenCount mt text
      = ((paragraphsOf text).map (fun p => numTokens (mt (pyStrip p)) + 1)).sum := by
  simpa using foldl_countParagraph mt (paragraphsOf text) 0

/-- Folding the scanner's per-paragraph step from any start value adds the
per-paragraph contributions: len(tokenized) when len(tokenized)+1 reaches
100, otherwise nothing. -/
theorem foldl_scanParagraph (tok : String → List String) (ps : List String) (t0 : Nat) :
    ps.foldl (scanParagraph tok) t0
      = t0 + (ps.map (fun p =>
          if 100 ≤ (tok (pyStrip p)).length + 1 then (tok (pyStrip p)).length else 0)).sum := by
  induction ps generalizing t0 with
  | nil => simp
  | cons p ps ih =>
    simp only [List.foldl_cons, List.map_cons, List.sum_cons, ih, scanParagraph]
    split <;> omega

/-- Folding the scanner's per-article step from any start value adds, for
every record get_texts would keep, the scanner's per-paragraph sum. -/
theorem foldl_scanArticle (tok : String → List String) (arts : List Article) (t0 : Nat) :
    arts.foldl (scanArticle tok) t0
      = t0 + ((get_texts arts).map (fun a =>
          ((paragraphsOf a.text).map (fun p =>
            if 100 ≤ (tok (pyStrip p)).length + 1 then (tok (pyStrip p)).length else 0)).sum)).sum := by
  induction arts generalizing t0 with
  | nil => simp [get_texts]
  | cons a arts ih =>
    by_cases h : pyStrip a.text = a.title
    · simp only [List.foldl_cons, scanArticle, if_pos h, get_texts, ih]
    · simp only [List.foldl_cons, scanArticle, if_neg h, get_texts, List.map_cons,
        List.sum_cons, ih, foldl_scanParagraph]
      omega

/-- Claim C1 (amended): findTotalTokens applies the same stub filter as
get_texts, but not the writer's article-level acceptance filter: it applies
the 100-token threshold per paragraph (list token count + 1 at least 100)
and accumulates the raw per-paragraph token count without any +1.  Its
total is therefore a per-paragraph filtered sum, not the sum of the
writer's token counts over writer-accepted articles. -/
theorem C1_scanner_per_paragraph (tok : String → List String) (articles : List Article) :
    findTotalTokens tok articles
      = ((get_texts articles).map (fun a =>
          ((paragraphsOf a.text).map (fun p =>
            if 100 ≤ (tok (pyStrip p)).length + 1 then (tok (pyStrip p)).length else 0)).sum)).sum := by
  simpa using foldl_scanArticle tok articles 0

/-- The writer loop consumes a prefix of its input and writes exactly the
articles of that prefix whose token count reaches 100, in order. -/
theorem writeLoop_split (mt : String → String) (b : Option Int) :
    ∀ (input : List Article) (c t : Nat),
      ∃ p, input = p ++ (writeLoop mt b c t input).rest ∧
        (writeLoop mt b c t input).written = p.filter (accepted mt) := by
  intro input
  induction input with
  | nil => intro c t; exact ⟨[], by simp [writeLoop]⟩
  | cons a rest ih =>
    intro c t
    by_cases h : articleTokenCount mt a.text < 100
    · have hacc : accepted mt a = false := by
        simp only [accepted, decide_eq_false_iff_not]; omega
      obtain ⟨p, hp, hw⟩ := ih c t
      refine ⟨a :: p, ?_, ?_⟩
      · simpa [writeLoop, h] using hp
      · simp [writeLoop, h, List.filter_cons, hacc, hw]
    · have hacc : accepted mt a = true := by
        simp only [accepted, decide_eq_true_eq]; omega
      by_cases hb : overBudget b (t + articleTokenCount mt a.text + 1) = true
      · refine ⟨[a], ?_, ?_⟩
        · simp [writeLoop, h, hb]
        · simp [writeLoop, h, hb, List.filter_cons, hacc]
      · obtain ⟨p, hp, hw⟩ := ih (c + 1) (t + articleTokenCount mt a.text + 1)
        refine ⟨a :: p, ?_, ?_⟩
        · simpa [writeLoop, h, hb] using hp
        · simp [writeLoop, h, hb, List.filter_cons, hacc, hw]

/-- write_wikitext consumes a prefix of its input, leaves the remainder in
the iterator, and writes exactly the accepted articles of that prefix. -/
theorem write_wikitext_split (mt : String → String) (b : Option Int) (input : List Article) :
    ∃ p, input = p ++ (write_wikitext mt b input).rest ∧
      (write_wikitext mt b input).written = p.filter (accepted mt) :=
  writeLoop_split mt b input 0 0

/-- Every written article comes from the input and is accepted. -/
theorem mem_of_mem_written (mt : String → String) (b : Option Int) (input : List Article)
    (x : Article) (hx : x ∈ (write_wikitext mt b input).written) :
    x ∈ input ∧ accepted mt x = true := by
  obtain ⟨p, hp, hw⟩ := write_wikitext_split mt b input
  rw [hw] at hx
  rcases List.mem_filter.mp hx with ⟨hxp, hxa⟩
  exact ⟨hp ▸ List.mem_append_left _ hxp, hxa⟩

/-- Every article left in the iterator comes from the input. -/
theorem mem_of_mem_rest (mt : String → String) (b : Option Int) (input : List Article)
    (x : Article) (hx : x ∈ (write_wikitext mt b input).rest) : x ∈ input := by
  obtain ⟨p, hp, _⟩ := write_wikitext_split mt b input
  rw [hp]
  exact List.mem_append_right _ hx

/-- get_texts keeps exactly the records whose stripped text differs from
their verbatim title. -/
theorem get_texts_eq_filter (src : List Article) :
    get_texts src = src.filter (fun a => !(pyStrip a.text == a.title)) := by
  induction src with
  | nil => rfl
  | cons a rest ih =>
    by_cases h : pyStrip a.text = a.title
    · simp [get_texts, h, ih, List.filter_cons]
    · simp [get_texts, h, ih, List.filter_cons]

/-- A record yielded by get_texts never has stripped text equal to its
verbatim title. -/
theorem not_stub_of_mem_get_texts (src : List Article) (x : Article)
    (hx : x ∈ get_texts src) : ¬ pyStrip x.text = x.title := by
  rw [get_texts_eq_filter] at hx
  simpa using (List.mem_filter.mp hx).2

/-- Claim C2 (amended): after the three sequential write_wikitext calls
that consume the single shared get_texts iterator, the consumed part of the
stream splits into three contiguous segments, train, valid and test, in
source order; each split's output is exactly the accepted articles of its
segment, and the concatenation of the three outputs equals the accepted
subsequence of the consumed prefix - same order, no repeats, no gaps within
the consumed prefix.  Accepted articles beyond the consumed prefix (when
all three budgets are exceeded early) appear in no split. -/
theorem C2_segment_partition (mt : String → String) (src : List Article) (b1 b2 b3 : Int) :
    ∃ p1 p2 p3,
      get_texts src = p1 ++ p2 ++ p3 ++ (testRun mt src b1 b2 b3).rest ∧
      (trainRun mt src b1).written = p1.filter (accepted mt) ∧
      (validRun mt src b1 b2).written = p2.filter (accepted mt) ∧
      (testRun mt src b1 b2 b3).written = p3.filter (accepted mt) ∧
      (trainRun mt src b1).written ++ (validRun mt src b1 b2).written
          ++ (testRun mt src b1 b2 b3).written
        = (p1 ++ p2 ++ p3).filter (accepted mt) := by
  obtain ⟨p1, h1, w1⟩ := write_wikitext_split mt (some b1) (get_texts src)
  obtain ⟨p2, h2, w2⟩ := write_wikitext_split mt (some b2) (trainRun mt src b1).rest
  obtain ⟨p3, h3, w3⟩ := write_wikitext_split mt (some b3) (validRun mt src b1 b2).rest
  refine ⟨p1, p2, p3, ?_, w1, w2, w3, ?_⟩
  · have h1' : get_texts src = p1 ++ (trainRun mt src b1).rest := h1
    have h2' : (trainRun mt src b1).rest = p2 ++ (validRun mt src b1 b2).rest := h2
    have h3' : (validRun mt src b1 b2).rest = p3 ++ (testRun mt src b1 b2 b3).rest := h3
    rw [h1', h2', h3']
    simp [List.append_assoc]
  · show (write_wikitext mt (some b1) (get_texts src)).written
        ++ (write_wikitext mt (some b2) (trainRun mt src b1).rest).written
        ++ (write_wikitext mt (some b3) (validRun mt src b1 b2).rest).written
      = (p1 ++ p2 ++ p3).filter (accepted mt)
    rw [w1, w2, w3, List.filter_append, List.filter_append]

/-- Claim C3 (amended): get_texts drops a record exactly when its stripped
text equals its verbatim, unstripped title (text.strip() == title, not
title.strip()), silently and without counters; a record satisfying that
comparison never appears in any split's output, regardless of length. -/
theorem C3_stub_filter (mt : String → String) (src : List Article) (b1 b2 b3 : Int)
    (a : Article) (h : pyStrip a.text = a.title) :
    get_texts src = src.filter (fun x => !(pyStrip x.text == x.title)) ∧
    a ∉ (trainRun mt src b1).written ∧
    a ∉ (validRun mt src b1 b2).written ∧
    a ∉ (testRun mt src b1 b2 b3).written := by
  refine ⟨get_texts_eq_filter src, fun hmem => ?_, fun hmem => ?_, fun hmem => ?_⟩
  · exact not_stub_of_mem_get_texts src a
      (mem_of_mem_written mt (some b1) (get_texts src) a hmem).1 h
  · exact not_stub_of_mem_get_texts src a
      (mem_of_mem_rest mt (some b1) (get_texts src) a
        (mem_of_mem_written mt (some b2) (trainRun mt src b1).rest a hmem).1) h
  · exact not_stub_of_mem_get_texts src a
      (mem_of_mem_rest mt (some b1) (get_texts src) a
        (mem_of_mem_rest mt (some b2) (trainRun mt src b1).rest a
          (mem_of_mem_written mt (some b3) (validRun mt src b1 b2).rest a hmem).1)) h

/-- Claim C4: an article consumed by write_wikitext is written if and only
if its computed token count is at least 100: the written output is the
acceptance filter of the consumed prefix.  The boundary is inclusive at
100 and exclusive below: a 99-token article is excluded, a 100-token
article is included. -/
theorem C4_acceptance_boundary :
    (∀ (mt : String → String) (b : Option Int) (input : List Article),
      ∃ consumed, input = consumed ++ (write_wikitext mt b input).rest ∧
        (write_wikitext mt b input).written = consumed.filter (accepted mt)) ∧
    articleTokenCount mtId art99.text = 99 ∧
    (write_wikitext mtId none [art99]).written = [] ∧
    articleTokenCount mtId art100.text = 100 ∧
    (write_wikitext mtId none [art100]).written = [art100] := by
  refine ⟨fun mt b input => write_wikitext_split mt b input, ?_, ?_, ?_, ?_⟩ <;> decide

/-- Claim C6: one step of the write_wikitext loop with a set budget.  A
rejected article (token count < 100) is discarded silently, consumes no
budget and the loop continues unchanged.  For an accepted article the
writer writes it first, adds token_count + 1 to the accumulated total and
1 to the document count, and then stops consuming exactly when the new
total strictly exceeds the budget, leaving the cursor right after the
consumed article; otherwise the loop continues with the bumped accumulators. -/
theorem C6_writer_step (mt : String → String) (b : Int) (c t : Nat)
    (a : Article) (rest : List Article) :
    (articleTokenCount mt a.text < 100 →
      writeLoop mt (some b) c t (a :: rest) = writeLoop mt (some b) c t rest) ∧
    (100 ≤ articleTokenCount mt a.text →
      (((t + articleTokenCount mt a.text + 1 : Nat) : Int) > b →
        writeLoop mt (some b) c t (a :: rest)
          = ⟨[a], c + 1, t + articleTokenCount mt a.text + 1, rest⟩) ∧
      (((t + articleTokenCount mt a.text + 1 : Nat) : Int) ≤ b →
        writeLoop mt (some b) c t (a :: rest)
          = ⟨a :: (writeLoop mt (some b) (c + 1) (t + articleTokenCount mt a.text + 1) rest).written,
              (writeLoop mt (some b) (c + 1) (t + articleTokenCount mt a.text + 1) rest).count,
              (writeLoop mt (some b) (c + 1) (t + articleTokenCount mt a.text + 1) rest).total,
              (writeLoop mt (some b) (c + 1) (t + articleTokenCount mt a.text + 1) rest).rest⟩)) := by
  refine ⟨fun h => by simp [writeLoop, h], fun h => ⟨fun hgt => ?_, fun hle => ?_⟩⟩
  · have hnot : ¬ articleTokenCount mt a.text < 100 := by omega
    have hb : overBudget (some b) (t + articleTokenCount mt a.text + 1) = true := by
      simp only [overBudget, decide_eq_true_eq]; exact_mod_cast hgt
    simp [writeLoop, hnot, hb]
  · have hnot : ¬ articleTokenCount mt a.text < 100 := by omega
    have hb : overBudget (some b) (t + articleTokenCount mt a.text + 1) = false := by
      simp only [overBudget, decide_eq_false_iff_not]; omega
    simp [writeLoop, hnot, hb]

/-- With a nonpositive budget the loop writes at most the first accepted
article and stops right after it. -/
theorem writeLoop_nonpos_budget (mt : String → String) (b : Int) (hb : b ≤ 0) :
    ∀ (input : List Article) (c t : Nat),
      (writeLoop mt (some b) c t input).written
          = (input.filter (accepted mt)).take 1 ∧
      (writeLoop mt (some b) c t input).rest
          = (input.dropWhile (fun a => !(accepted mt a))).tail := by
  intro input
  induction input with
  | nil => intro c t; simp [writeLoop]
  | cons a rest ih =>
    intro c t
    by_cases h : articleTokenCount mt a.text < 100
    · have hacc : accepted mt a = false := by
        simp only [accepted, decide_eq_false_iff_not]; omega
      have := ih c t
      simp [writeLoop, h, List.filter_cons, hacc, List.dropWhile_cons, this.1, this.2]
    · have hacc : accepted mt a = true := by
        simp only [accepted, decide_eq_true_eq]; omega
      have hover : overBudget (some b) (t + articleTokenCount mt a.text + 1) = true := by
        simp only [overBudget, decide_eq_true_eq]; omega
      simp [writeLoop, h, hover, List.filter_cons, hacc, List.dropWhile_cons]

/-- Claim C9: a zero or negative budget is not an error: write_wikitext
terminates normally, produces empty output when no article is accepted,
and otherwise writes exactly the first accepted article it encounters and
immediately stops consuming, because the accumulated total (at least 101)
exceeds the nonpositive budget. -/
theorem C9_nonpositive_budget (mt : String → String) (b : Int) (hb : b ≤ 0)
    (input : List Article) :
    (write_wikitext mt (some b) input).written = (input.filter (accepted mt)).take 1 ∧
    (write_wikitext mt (some b) input).rest
      = (input.dropWhile (fun a => !(accepted mt a))).tail :=
  writeLoop_nonpos_budget mt b hb input 0 0

/-- Witness for claim C9 at budget 0 with a rejected article followed by
two accepted ones: only the first accepted article is written. -/
theorem C9_nonpositive_budget_witness :
    (write_wikitext mtId (some 0) [art99, art100, art200]).written
        = ([art99, art100, art200].filter (accepted mtId)).take 1 ∧
    (write_wikitext mtId (some 0) [art99, art100, art200]).rest
        = ([art99, art100, art200].dropWhile (fun a => !(accepted mtId a))).tail :=
  C9_nonpositive_budget mtId 0 (by decide) [art99, art100, art200]

/-- On nonnegative rationals Python int() truncation agrees with floor. -/
theorem pyInt_eq_floor (q : ℚ) (hq : 0 ≤ q) : pyInt q = ⌊q⌋ := by
  rcases eq_or_lt_of_le hq with h | h
  · rw [← h]
    simp [pyInt]
  · have hnum : 0 < q.num := Rat.num_pos.mpr h
    have hd : (0 : ℚ) < (q.den : ℚ) := by exact_mod_cast q.den_pos
    have hna : ((q.num.natAbs : ℤ)) = q.num := Int.natAbs_of_nonneg hnum.le
    have hq' : ((q.num.natAbs : ℚ)) = (q.num : ℚ) := by rw [← Int.cast_natCast, hna]
    have hrepr : q = ((q.num.natAbs : ℚ)) / ((q.den : ℚ)) := by rw [hq', Rat.num_div_den]
    have hlt : q.num.natAbs < (q.num.natAbs / q.den + 1) * q.den := by
      rw [Nat.add_mul, one_mul, Nat.mul_comm (q.num.natAbs / q.den) q.den]
      have hmod := Nat.div_add_mod q.num.natAbs q.den
      have hmlt := Nat.mod_lt q.num.natAbs q.den_pos
      omega
    have hle : q.num.natAbs / q.den * q.den ≤ q.num.natAbs := Nat.div_mul_le_self _ _
    unfold pyInt
    rw [Int.sign_eq_one_of_pos hnum, one_mul]
    symm
    rw [Int.floor_eq_iff]
    generalize hk : q.num.natAbs / q.den = k at hlt hle ⊢
    constructor
    · rw [hrepr, le_div_iff₀ hd]
      push_cast
      exact_mod_cast hle
    · rw [hrepr, div_lt_iff₀ hd]
      push_cast
      exact_mod_cast hlt

/-- Claim C7: get_splits(1000, 1/10) = (800, 100, 100) and
get_splits(0, 1/10) = (0, 0, 0); for every nonnegative total and
nonnegative fraction the result has shape (total - 2*s, s, s) with
s = floor(total * fraction), and train + 2*split is at most the total. -/
theorem C7_get_splits :
    get_splits 1000 (1 / 10) = [800, 100, 100] ∧
    get_splits 0 (1 / 10) = [0, 0, 0] ∧
    ∀ t : ℤ, 0 ≤ t → ∀ f : ℚ, 0 ≤ f →
      ∃ tr s : ℤ, get_splits t f = [tr, s, s] ∧ s = ⌊(t : ℚ) * f⌋ ∧ tr + 2 * s ≤ t := by
  refine ⟨?_, ?_, ?_⟩
  · unfold get_splits
    rw [pyInt_eq_floor _ (by norm_num)]
    rw [show ((1000 : ℤ) : ℚ) * (1 / 10) = ((100 : ℤ) : ℚ) by norm_num, Int.floor_intCast]
    norm_num
  · unfold get_splits
    rw [pyInt_eq_floor _ (by norm_num)]
    rw [show ((0 : ℤ) : ℚ) * (1 / 10) = ((0 : ℤ) : ℚ) by norm_num, Int.floor_intCast]
    norm_num
  · intro t ht f hf
    refine ⟨t - 2 * pyInt ((t : ℚ) * f), pyInt ((t : ℚ) * f), rfl, ?_, by omega⟩
    exact pyInt_eq_floor _ (mul_nonneg (by exact_mod_cast ht) hf)

/-- Witness for claim C7 at total 1000 and fraction 1/10. -/
theorem C7_get_splits_witness :
    ∃ tr s : ℤ, get_splits 1000 (1 / 10) = [tr, s, s]
      ∧ s = ⌊((1000 : ℤ) : ℚ) * (1 / 10)⌋ ∧ tr + 2 * s ≤ 1000 :=
  C7_get_splits.2.2 1000 (by norm_num) (1 / 10) (by norm_num)



/-- Claim C1 as stated is false on the code: for the tokenizer tokC, which
returns 99 tokens for every paragraph, and the one-paragraph non-stub
article artC, write_wikitext would accept the article with token count
100, but findTotalTokens returns 99 (paragraph threshold met, raw length
added without the +1), so the scanner total differs from the writer sum. -/
theorem C1_counterexample :
    ¬ (findTotalTokens tokC [artC]
      = (((get_texts [artC]).filter (accepted (joinTok tokC))).map
          (fun a => articleTokenCount (joinTok tokC) a.text)).sum) := by decide

/-- Claim C2 as stated is false on the code: with budgets (0, 0, 0) over
four accepted articles, bArt4 is accepted yet appears in no split's
output, so the concatenation of the three outputs is not the ordered
sequence of all accepted articles of the source. -/
theorem C2_counterexample :
    accepted mtId bArt4 = true ∧ bArt4 ∈ get_texts srcFour ∧
    bArt4 ∉ (trainRun mtId srcFour 0).written ∧
    bArt4 ∉ (validRun mtId srcFour 0 0).written ∧
    bArt4 ∉ (testRun mtId srcFour 0 0 0).written ∧
    ¬ ((trainRun mtId srcFour 0).written ++ (validRun mtId srcFour 0 0).written
        ++ (testRun mtId srcFour 0 0 0).written
      = (get_texts srcFour).filter (accepted mtId)) := by decide

/-- Claim C3 as stated is false on the code: cexStub's trimmed text equals
its trimmed title, yet get_texts keeps the record, because its raw title
carries surrounding spaces and the code compares against the verbatim
title; the train split then writes the article. -/
theorem C3_counterexample :
    pyStrip cexStub.text = pyStrip cexStub.title ∧
    get_texts [cexStub] = [cexStub] ∧
    (trainRun mtId [cexStub] 1000).written = [cexStub] := by decide

/-- Claim C8: with three articles of token counts 150, 50 and 200 and
budgets (250, 50, 50): the 50-token article is dropped; train writes the
150-token article (total 151, at most 250, continues), then the 200-token
article (total 352, over 250) and stops with the iterator exhausted; the
valid and test calls write nothing and report document count 0. -/
theorem C8_end_to_end :
    articleTokenCount mtId art150.text = 150 ∧
    articleTokenCount mtId art50.text = 50 ∧
    articleTokenCount mtId art200.text = 200 ∧
    (trainRun mtId srcScenario 250).written = [art150, art200] ∧
    (trainRun mtId srcScenario 250).count = 2 ∧
    (trainRun mtId srcScenario 250).total = 352 ∧
    (trainRun mtId srcScenario 250).rest = [] ∧
    (validRun mtId srcScenario 250 50).written = [] ∧
    (validRun mtId srcScenario 250 50).count = 0 ∧
    (testRun mtId srcScenario 250 50 50).written = [] ∧
    (testRun mtId srcScenario 250 50 50).count = 0 := by decide

/-- Witness for claim C6: the rejected branch on a 99-token article and
the accepted stopping branch on a 100-token article at budget 0. -/
theorem C6_writer_step_witness :
    writeLoop mtId (some 0) 0 0 [art99] = writeLoop mtId (some 0) 0 0 [] ∧
    writeLoop mtId (some 0) 0 0 [art100]
      = ⟨[art100], 0 + 1, 0 + articleTokenCount mtId art100.text + 1, []⟩ :=
  ⟨(C6_writer_step mtId 0 0 0 art99 []).1 (by decide),
    ((C6_writer_step mtId 0 0 0 art100 []).2 (by decide)).1 (by decide)⟩

/-- Witness for claim C3 (amended) on a genuine stub record. -/
theorem C3_stub_filter_witness :
    get_texts [stubArt] = [stubArt].filter (fun x => !(pyStrip x.text == x.title)) ∧
    stubArt ∉ (trainRun mtId [stubArt] 5).written ∧
    stubArt ∉ (validRun mtId [stubArt] 5 5).written ∧
    stubArt ∉ (testRun mtId [stubArt] 5 5 5).written :=
  C3_stub_filter mtId [stubArt] 5 5 5 stubArt (by decide)

/-- String append acts as list append on the underlying characters. -/
theorem string_data_append (a b : String) : (a ++ b).data = a.data ++ b.data := rfl

/-- Folding string append over a list concatenates the character data. -/
theorem foldl_append_data (l : List String) :
    ∀ s : String, (l.foldl (fun r t => r ++ t) s).data = s.data ++ (l.map String.data).flatten := by
  induction l with
  | nil => intro s; simp
  | cons x l ih =>
    intro s
    simp only [List.foldl_cons, List.map_cons, List.flatten, ih (s ++ x), string_data_append]
    simp [List.append_assoc]

/-- The characters of a joined string list are the flattened character
lists. -/
theorem string_join_data (l : List String) :
    (String.join l).data = (l.map String.data).flatten := by
  simpa [String.join] using foldl_append_data l ""

/-- Mapping a constant function yields a replicate. -/
theorem map_const_replicate {α β : Type} (b : β) (l : List α) :
    l.map (fun _ => b) = List.replicate l.length b := by
  induction l with
  | nil => rfl
  | cons x l ih => simp [ih, List.replicate]

/-- Flattening replicated singleton lists yields a replicated list. -/
theorem join_replicate_singleton (n : Nat) (c : Char) :
    (List.replicate n [c]).flatten = List.replicate n c := by
  induction n with
  | zero => rfl
  | succ n ih => simp [List.replicate, ih]

/-- When every summand's base is zero, summing base + 1 counts the list. -/
theorem sum_map_succ_eq_length {α : Type} (g : α → Nat) (l : List α)
    (h : ∀ x ∈ l, g x = 0) : (l.map (fun x => g x + 1)).sum = l.length := by
  induction l with
  | nil => rfl
  | cons x l ih =>
    have hx := h x (List.mem_cons_self x l)
    have ihl := ih (fun y hy => h y (List.mem_cons_of_mem x hy))
    simp only [List.map_cons, List.sum_cons, List.length_cons, hx, ihl]
    omega

/-- Claim C10: if every paragraph of an article tokenizes to a string with
no non-empty whitespace-delimited tokens, the computed token count equals
the number of paragraphs; an article with at least 100 such paragraphs is
therefore accepted and written even though it has no word tokens, and when
the tokenizer returns the empty string for each paragraph the written
block is the header line followed by one blank line per paragraph. -/
theorem C10_all_blank_paragraphs (mt : String → String) (a : Article)
    (h : ∀ p ∈ paragraphsOf a.text, numTokens (mt (pyStrip p)) = 0)
    (hlen : 100 ≤ (paragraphsOf a.text).length) :
    articleTokenCount mt a.text = (paragraphsOf a.text).length ∧
    (write_wikitext mt none [a]).written = [a] ∧
    ((∀ p ∈ paragraphsOf a.text, mt (pyStrip p) = "") →
      fileContent mt (write_wikitext mt none [a])
        = "= " ++ pyStrip a.title ++ " =" ++ "\n"
            ++ String.mk (List.replicate (paragraphsOf a.text).length '\n')) := by
  have h1 : articleTokenCount mt a.text = (paragraphsOf a.text).length := by
    calc articleTokenCount mt a.text
        = ((paragraphsOf a.text).map (fun p => numTokens (mt (pyStrip p)) + 1)).sum := by
          simpa using foldl_countParagraph mt (paragraphsOf a.text) 0
      _ = (paragraphsOf a.text).length :=
          sum_map_succ_eq_length (fun p => numTokens (mt (pyStrip p))) _ h
  have hnot : ¬ articleTokenCount mt a.text < 100 := by omega
  have h2 : (write_wikitext mt none [a]).written = [a] := by
    simp [write_wikitext, writeLoop, hnot, overBudget]
  refine ⟨h1, h2, fun h' => ?_⟩
  have hmap : (paragraphsOf a.text).map (fun p => mt (pyStrip p) ++ "\n")
      = List.replicate (paragraphsOf a.text).length "\n" := by
    rw [← map_const_replicate]
    exact List.map_congr_left (fun p hp => by rw [h' p hp]; exact String.ext rfl)
  have hjoin : String.join ((paragraphsOf a.text).map (fun p => mt (pyStrip p) ++ "\n"))
      = String.mk (List.replicate (paragraphsOf a.text).length '\n') := by
    apply String.ext
    rw [hmap, string_join_data, List.map_replicate]
    exact join_replicate_singleton _ _
  have hone : fileContent mt (write_wikitext mt none [a]) = renderArticle mt a := by
    rw [fileContent, h2]
    apply String.ext
    rw [string_join_data]
    simp
  rw [hone, renderArticle, hjoin]


/-- Witness for claim C10: an article of 100 empty paragraphs under the
empty-string tokenizer. -/
theorem C10_all_blank_paragraphs_witness :
    articleTokenCount mtEmpty aBlank.text = (paragraphsOf aBlank.text).length ∧
    (write_wikitext mtEmpty none [aBlank]).written = [aBlank] ∧
    ((∀ p ∈ paragraphsOf aBlank.text, mtEmpty (pyStrip p) = "") →
      fileContent mtEmpty (write_wikitext mtEmpty none [aBlank])
        = "= " ++ pyStrip aBlank.title ++ " =" ++ "\n"
            ++ String.mk (List.replicate (paragraphsOf aBlank.text).length '\n')) :=
  C10_all_blank_paragraphs mtEmpty aBlank (by decide) (by decide)
